import Mathlib

/-!
Verification development for the comet-dynamic-platform plugin system.

The definitions below are a shallow embedding of the Rust sources:
  * src/plugin-defs/src/lib.rs  — the secure package format (Package,
    PackageExport, digest/signature checking, export/import, staging),
  * src/plugin-base/src/lib.rs  — the plugin registry (PluginManager,
    load_plugin, load_plugin_inner, the error taxonomy).

Third-party crates are modelled as executable Lean functions that mirror
their documented behaviour at the abstraction level the code relies on:
bincode/serde_json serialisation is modelled structurally (a constructor-
tagged wire type instead of raw byte strings), zstd as a lossless wrapper,
ed25519 signing as a deterministic (key, message) pair checked by exact
match, and BLAKE-512 as a deterministic executable 64-byte digest
function (collision resistance is not modelled).  Hex encoding/decoding is
modelled faithfully, including the hex crate's acceptance of both upper-
and lower-case digits on decode.
-/

set_option linter.unusedVariables false

/-- Model of semver::Version restricted to major.minor.patch. -/
structure SemVer where
  major : Nat
  minor : Nat
  patch : Nat
deriving DecidableEq

/-- Model of semver::VersionReq restricted to caret requirements, the only
shape this code base produces (the framework default and the sample plugin
both use caret requirements). -/
inductive VersionReq where
  | caret (v : SemVer)
deriving DecidableEq

/-- Digits of a decimal numeral; none when empty or a non-digit occurs. -/
def parseNatDigits (cs : List Char) : Option Nat :=
  if cs.isEmpty || !cs.all Char.isDigit then none
  else some (cs.foldl (fun n c => n * 10 + (c.toNat - 48)) 0)

/-- Split a character list on each dot. -/
def splitOnDot : List Char → List (List Char)
  | [] => [[]]
  | c :: rest =>
    let r := splitOnDot rest
    if c = '.' then [] :: r
    else
      match r with
      | [] => [[c]]
      | h :: t => (c :: h) :: t

def parseSemVer (cs : List Char) : Option SemVer :=
  match (splitOnDot cs).map parseNatDigits with
  | [some a, some b, some c] => some ⟨a, b, c⟩
  | _ => none

/-- Model of semver::VersionReq::parse on the caret subset: a caret followed
by major.minor.patch parses, anything else is rejected. -/
def VersionReq.parse (s : String) : Option VersionReq :=
  match s.data with
  | '^' :: rest => (parseSemVer rest).map VersionReq.caret
  | _ => none

/-- Caret-requirement matching with the semver crate's semantics. -/
def VersionReq.matches : VersionReq → SemVer → Bool
  | .caret r, v =>
    if r.major > 0 then
      v.major == r.major && (v.minor > r.minor || (v.minor == r.minor && v.patch >= r.patch))
    else if r.minor > 0 then
      v.major == 0 && v.minor == r.minor && v.patch >= r.patch
    else
      v.major == 0 && v.minor == 0 && v.patch == r.patch

/-- src/plugin-defs: DependencySpec. -/
structure DependencySpec where
  name : String
  version : VersionReq
deriving DecidableEq

/-- src/plugin-defs: PackageMetadata. -/
structure PackageMetadata where
  name : String
  digest : String
  version : SemVer
  dependencies : List DependencySpec
deriving DecidableEq

/-- src/plugin-defs: Package. -/
structure Package where
  metadata : PackageMetadata
  library : List Nat
deriving DecidableEq

/-- src/plugin-defs: ExportAlgorithm. -/
inductive ExportAlgorithm where
  | none
  | zstd
deriving DecidableEq

/-- Model of the BLAKE-512 digest used by Package::digest and the staging
re-check: a deterministic executable function producing exactly 64 bytes.
Only determinism and output width are relied upon by the claims;
collision resistance is not modelled. -/
def blake512 (bs : List Nat) : List Nat :=
  (List.range 64).map (fun i => (bs.foldl (fun a b => (a * 31 + b) % 256) (i * 7 + 13)) % 256)

/-- Lower-case hex digit characters, as hex::encode emits. -/
def hexDigitChar (n : Nat) : Char :=
  "0123456789abcdef".data.getD n '0'

def hexEncodeList (bs : List Nat) : List Char :=
  bs.flatMap (fun b => [hexDigitChar (b / 16), hexDigitChar (b % 16)])

/-- Model of hex::encode (lower-case output). -/
def hexEncode (bs : List Nat) : String :=
  String.mk (hexEncodeList bs)

/-- Model of the hex crate's digit decoder: accepts 0-9, a-f and A-F
(decoding is case-insensitive, unlike encoding). -/
def hexDigitVal (c : Char) : Option Nat :=
  if 48 ≤ c.toNat ∧ c.toNat ≤ 57 then some (c.toNat - 48)
  else if 97 ≤ c.toNat ∧ c.toNat ≤ 102 then some (c.toNat - 87)
  else if 65 ≤ c.toNat ∧ c.toNat ≤ 70 then some (c.toNat - 55)
  else none

def hexDecodeList : List Char → Option (List Nat)
  | [] => some []
  | [_] => none
  | c1 :: c2 :: rest =>
    match hexDigitVal c1, hexDigitVal c2, hexDecodeList rest with
    | some h, some l, some bs => some ((h * 16 + l) :: bs)
    | _, _, _ => none

/-- Model of hex::decode. -/
def hexDecode (s : String) : Option (List Nat) :=
  hexDecodeList s.data

/-- Version stamp of the bincode crate, extracted at build time by the
plugin-commons build script; its exact value is irrelevant to the claims,
only that serialisation writes the same constant deserialisation expects. -/
def BINCODE_VERSION : String := "1.3.3"

/-- Version stamp of the abi_stable crate, extracted at build time. -/
def ABI_STABLE_VERSION : String := "0.11.3"

/-- Model of the serde_json form of PackageMetadata embedded inside the
Package wire format: either a faithful encoding of a metadata record or an
arbitrary other document (which fails to deserialise as PackageMetadata). -/
inductive MetaJson where
  | meta (m : PackageMetadata)
  | junk (s : String)
deriving DecidableEq

/-- Structural model of serialised byte strings.  The constructors are the
wire shapes this code can encounter: the bincode encoding of a Package
(custom Serialize impl: two version stamps, the metadata JSON document and
the raw library bytes); the bincode encoding of a PackageExport envelope
(algorithm tag, payload bytes, ed25519 signature modelled as the signing
key id plus the signed message); a zstd frame wrapping inner bytes; and
arbitrary other bytes. -/
inductive Bytes where
  | raw (data : List Nat)
  | pkgWire (bincodeVersion abiStableVersion : String) (metadata : MetaJson) (library : List Nat)
  | envWire (alog : ExportAlgorithm) (payload : Bytes) (sigKey : Nat) (sigMsg : Bytes)
  | zstdWire (inner : Bytes)
deriving DecidableEq

/-- Model of an ed25519 signature: the key that produced it and the message
it covers.  Verification checks both (a correct signature verifies, any
other (key, message) pair fails); unforgeability beyond this is not
modelled. -/
structure Sig where
  key : Nat
  msg : Bytes
deriving DecidableEq

/-- Model of ed25519 signing: deterministic in key and message. -/
def sign (sk : Nat) (msg : Bytes) : Sig := ⟨sk, msg⟩

/-- Model of ed25519 verification against a public key: in this model the
public key is identified with the signing key id. -/
def verify (pk : Nat) (msg : Bytes) (s : Sig) : Bool :=
  s.key == pk && s.msg == msg

/-- src/plugin-defs: PackageExport (the field is spelled alog in the
source). -/
structure PackageExport where
  alog : ExportAlgorithm
  payload : Bytes
  signature : Sig
deriving DecidableEq

/-- src/plugin-defs: Error (payloads of the wrapped errors are dropped;
only the variant is observable in the model). -/
inductive PkgError where
  | bincode
  | ioError
  | signature
  | invalidDigest
  | unableToReadPackage
deriving DecidableEq

/-- Model of bincode::serialize for Package via its custom Serialize impl
(src/plugin-defs mod ser): the two version stamps, the serde_json form of
the metadata, and the library bytes. -/
def bincodeSerializePackage (p : Package) : Bytes :=
  .pkgWire BINCODE_VERSION ABI_STABLE_VERSION (.meta p.metadata) p.library

/-- Model of bincode::deserialize for Package via its custom Deserialize
impl (src/plugin-defs mod de): on a non-strict build a version-stamp
mismatch only warns, then the metadata JSON document is deserialised
(failure there is a bincode error). -/
def bincodeDeserializePackage : Bytes → Except PkgError Package
  | .pkgWire _bv _av mj lib =>
    match mj with
    | .meta m => .ok ⟨m, lib⟩
    | .junk _ => .error .bincode
  | _ => .error .bincode

/-- Model of bincode::serialize for PackageExport. -/
def bincodeSerializeExport (e : PackageExport) : Bytes :=
  .envWire e.alog e.payload e.signature.key e.signature.msg

/-- Model of bincode::deserialize for PackageExport. -/
def bincodeDeserializeExport : Bytes → Except PkgError PackageExport
  | .envWire a p k m => .ok ⟨a, p, ⟨k, m⟩⟩
  | _ => .error .bincode

/-- Model of zstd::encode_all: a lossless frame around the input. -/
def zstdEncodeAll (b : Bytes) : Bytes := .zstdWire b

/-- Model of zstd::decode_all: unwraps a zstd frame, fails (an io error)
on anything that is not one. -/
def zstdDecodeAll : Bytes → Except PkgError Bytes
  | .zstdWire i => .ok i
  | _ => .error .ioError

/-- src/plugin-defs Package::digest: BLAKE-512 of the library bytes. -/
def Package.digest (p : Package) : List Nat :=
  blake512 p.library

/-- src/plugin-defs Package::new: takes ownership of metadata and library
and overwrites metadata.digest with the hex encoding of the library
digest. -/
def Package.new (metadata : PackageMetadata) (library : List Nat) : Package :=
  let this : Package := ⟨metadata, library⟩
  ⟨{ this.metadata with digest := hexEncode this.digest }, this.library⟩

/-- src/plugin-defs Package::digest_check: hex-decode the metadata digest,
convert to a 64-byte array (failing either step yields false), and compare
with the recomputed library digest. -/
def Package.digest_check (p : Package) : Bool :=
  match hexDecode p.metadata.digest with
  | some d => d.length == 64 && d == p.digest
  | none => false

/-- src/plugin-defs Package::export: bincode-serialise the package, sign
the serialised bytes, zstd-compress them, and bincode-serialise a
PackageExport envelope tagged Zstd.  (Signing and serialisation cannot
fail in the model, so the result is the exported bytes directly.) -/
def Package.export (p : Package) (signer : Nat) : Bytes :=
  let result := bincodeSerializePackage p
  let signature := sign signer result
  let compressed := zstdEncodeAll result
  bincodeSerializeExport ⟨ExportAlgorithm.zstd, compressed, signature⟩

/-- src/plugin-defs Package::import (named importPkg here because the word
itself is a Lean keyword): decode the envelope, obtain the payload
according to the algorithm tag, verify the signature over the payload,
deserialise the package, and check the digest. -/
def Package.importPkg (exported : Bytes) (pk : Nat) : Except PkgError Package :=
  match bincodeDeserializeExport exported with
  | .error e => .error e
  | .ok exp =>
    match (match exp.alog with
           | ExportAlgorithm.none => Except.ok exp.payload
           | ExportAlgorithm.zstd => zstdDecodeAll exp.payload) with
    | .error e => .error e
    | .ok payload =>
      if verify pk payload exp.signature then
        match bincodeDeserializePackage payload with
        | .error e => .error e
        | .ok package =>
          if package.digest_check then .ok package else .error .invalidDigest
      else .error .signature

/-- src/plugin-defs Package::import_file: read the file (a read failure is
UnableToReadPackage), then Package::import.  The file system is modelled
by an optional content. -/
def Package.importFile (content : Option Bytes) (pk : Nat) : Except PkgError Package :=
  match content with
  | Option.none => .error .unableToReadPackage
  | some c => Package.importPkg c pk

/-- The stages Package::import performs, in the order the source performs
them. -/
inductive ImportStep where
  | decodeEnvelope
  | decompress
  | verifySignature
  | deserializeFields
  | digestCheck
deriving DecidableEq

/-- Package::import instrumented with the list of stages it executed, in
execution order.  Its first component is proved to agree with
Package.importPkg. -/
def importFull (exported : Bytes) (pk : Nat) : Except PkgError Package × List ImportStep :=
  match bincodeDeserializeExport exported with
  | .error e => (.error e, [.decodeEnvelope])
  | .ok exp =>
    match (match exp.alog with
           | ExportAlgorithm.none => Except.ok exp.payload
           | ExportAlgorithm.zstd => zstdDecodeAll exp.payload) with
    | .error e => (.error e, [.decodeEnvelope, .decompress])
    | .ok payload =>
      if verify pk payload exp.signature then
        match bincodeDeserializePackage payload with
        | .error e => (.error e, [.decodeEnvelope, .decompress, .verifySignature, .deserializeFields])
        | .ok package =>
          (if package.digest_check then .ok package else .error .invalidDigest,
           [.decodeEnvelope, .decompress, .verifySignature, .deserializeFields, .digestCheck])
      else (.error .signature, [.decodeEnvelope, .decompress, .verifySignature])

/-- The envelope-decoding and decompression prefix of Package::import:
yields the payload the signature is checked over, together with the
envelope's signature. -/
def importPayload (exported : Bytes) : Except PkgError (Bytes × Sig) :=
  match bincodeDeserializeExport exported with
  | .error e => .error e
  | .ok exp =>
    match exp.alog with
    | ExportAlgorithm.none => .ok (exp.payload, exp.signature)
    | ExportAlgorithm.zstd =>
      match zstdDecodeAll exp.payload with
      | .error e => .error e
      | .ok payload => .ok (payload, exp.signature)

/-- The package Package::import obtains after envelope decoding,
decompression, signature verification and field deserialisation, before
the digest check; none when any of those stages fails. -/
def importDeserialized (exported : Bytes) (pk : Nat) : Option Package :=
  match importPayload exported with
  | .error _ => Option.none
  | .ok (payload, s) =>
    if verify pk payload s then
      match bincodeDeserializePackage payload with
      | .error _ => Option.none
      | .ok package => some package
    else Option.none

/-- src/plugin-defs PLUGIN_EXT for the build whose loader is present in
the sources (the cfg(windows) load_plugin_inner). -/
def PLUGIN_EXT : String := "dll"

/-- The fixed 62-character alphabet of rand's Alphanumeric distribution. -/
def ALPHANUMERIC : List Char :=
  "ABCDEFGHIJKLMNOPQRSTUVWXYZabcdefghijklmnopqrstuvwxyz0123456789".data

/-- Model of Alphanumeric.sample_string for one character: the RNG is
modelled as an explicit seed and each draw picks one alphabet entry. -/
def alphanumericSampleChar (n : Nat) : Char :=
  ALPHANUMERIC.getD (n % 62) 'A'

/-- Model of Alphanumeric.sample_string(thread_rng, len): a deterministic
function of an explicit RNG seed producing len alphabet characters. -/
def alphanumericSample (seed len : Nat) : String :=
  String.mk ((List.range len).map (fun i => alphanumericSampleChar (seed + i * 2654435761)))

/-- src/plugin-defs Package::release_lib_to_temp, the staged file name:
a freshly sampled 32-character alphanumeric token joined with the
platform extension. -/
def release_lib_file_name (seed : Nat) : String :=
  alphanumericSample seed 32 ++ "." ++ PLUGIN_EXT

/-- src/plugin-defs Package::release_lib_to_temp, the full staged path
inside the freshly created temporary directory. -/
def release_lib_staged_path (tempDir : String) (seed : Nat) : String :=
  tempDir ++ "/" ++ release_lib_file_name seed

/-- src/plugin-base load_plugin_inner, the staged file name: the constant
plugin.dll (temp_dir.path().join of a fixed string). -/
def load_plugin_inner_file_name : String := "plugin.dll"

/-- src/plugin-base load_plugin_inner, the full staged path inside the
freshly created temporary directory. -/
def load_plugin_inner_staged_path (tempDir : String) : String :=
  tempDir ++ "/" ++ load_plugin_inner_file_name

/-- Does a file name have the shape release_lib_to_temp generates: a
32-character alphanumeric token, a dot, and the platform extension? -/
def hasRandomTokenShape (s : String) : Bool :=
  s.data.length == 32 + 1 + PLUGIN_EXT.data.length
    && (s.data.take 32).all Char.isAlphanum
    && s.data.drop 32 == '.' :: PLUGIN_EXT.data

/-- src/plugin-base: the build-time API_VERSION of the host crate
(CARGO_PKG_VERSION of plugin-base, the 0.1 framework line the spec and the
sample plugin reference). -/
def API_VERSION : SemVer := ⟨0, 1, 0⟩

/-- src/plugin-base: the process-wide trust anchor VERIFIER_KEY, the
public key embedded from public-key.pem at build time. -/
def VERIFIER_KEY : Nat := 0

/-- The observable behaviour of a constructed plugin instance: its name
and its declared API version requirement (src/plugin-base trait Plugin). -/
structure PluginDef where
  name : String
  api_version_require : String
deriving DecidableEq

/-- src/plugin-base: PluginError, the structured initialisation failure a
plugin can report from its entry point. -/
inductive PluginError where
  | invalidConfig
  | setLogger
  | custom (msg : String)
deriving DecidableEq

instance {ε α : Type} [DecidableEq ε] [DecidableEq α] : DecidableEq (Except ε α) :=
  fun a b =>
    match a, b with
    | .error x, .error y =>
      if h : x = y then .isTrue (congrArg Except.error h)
      else .isFalse (fun hc => h (Except.error.inj hc))
    | .ok x, .ok y =>
      if h : x = y then .isTrue (congrArg Except.ok h)
      else .isFalse (fun hc => h (Except.ok.inj hc))
    | .error _, .ok _ => .isFalse Except.noConfusion
    | .ok _, .error _ => .isFalse Except.noConfusion

/-- What the loader can observe of a dynamically linked library: whether
the fixed entry symbol resolves, and what invoking the constructor
returns. -/
structure LibraryImage where
  hasCreateSymbol : Bool
  createResult : Except PluginError PluginDef
deriving DecidableEq

/-- The environment of one load_plugin_inner call: the outcome of each
effectful step (temporary-directory creation, file write, the locked
re-open), the bytes read back from the staged file at the re-check (the
file system may have been tampered with between write and re-read), and
the outcome of the dynamic-link step. -/
structure LoadWorld where
  tempDir : String
  tempdirOk : Bool
  writeOk : Bool
  reopenOk : Bool
  stagedBytes : List Nat
  linkOk : Bool
  linkedImage : LibraryImage
deriving DecidableEq

/-- src/plugin-base: Error.  All variants of the source enum are present,
including UnmetRequirement, whether or not load_plugin ever produces
them. -/
inductive LoadError where
  | invalidPackage (e : PkgError)
  | libraryLoad
  | missingSymbol (name : String)
  | invalidVersionReq (name req : String)
  | unmetRequirement (name req : String)
  | pluginInitialization (e : PluginError)
  | ioError
  | tampered
deriving DecidableEq

/-- src/plugin-base: PluginManager, the registry state: the plugin
instances and the loaded library handles, in load order. -/
structure PluginManager where
  plugins : List PluginDef
  loaded_libraries : List LibraryImage
deriving DecidableEq

/-- src/plugin-base PluginManager::load_plugin_inner (the cfg(windows)
variant present in the sources): create a temporary directory, write the
library bytes to plugin.dll inside it, re-open the file with restricted
access and share modes, read it back, recompute the BLAKE-512 digest and
compare with the package digest (a mismatch is the Tampered error), then
dynamically link the staged file. -/
def load_plugin_inner (package : Package) (w : LoadWorld) : Except LoadError LibraryImage :=
  if !w.tempdirOk then .error .ioError
  else if !w.writeOk then .error .ioError
  else if !w.reopenOk then .error .ioError
  else if blake512 w.stagedBytes == Package.digest package then
    (if !w.linkOk then .error .libraryLoad else .ok w.linkedImage)
  else .error .tampered

/-- src/plugin-base PluginManager::load_plugin: import the package file
with the embedded verifier key, stage and link it, push the library
handle, resolve the _comet_plugin_create symbol, invoke the constructor,
parse the plugin's declared version requirement, and either register the
plugin (requirement matches API_VERSION) or pop the just-pushed library
and fail.  Both an unparseable requirement and an unmatched one produce
Error::InvalidVersionReq in the source. -/
def load_plugin (st : PluginManager) (file : Option Bytes) (w : LoadWorld) :
    PluginManager × Except LoadError Unit :=
  match Package.importFile file VERIFIER_KEY with
  | .error e => (st, .error (.invalidPackage e))
  | .ok package =>
    match load_plugin_inner package w with
    | .error e => (st, .error e)
    | .ok lib =>
      let st1 : PluginManager :=
        { st with loaded_libraries := st.loaded_libraries ++ [lib] }
      if !lib.hasCreateSymbol then
        (st1, .error (.missingSymbol "_comet_plugin_create"))
      else
        match lib.createResult with
        | .error e => (st1, .error (.pluginInitialization e))
        | .ok plugin =>
          match VersionReq.parse plugin.api_version_require with
          | Option.none =>
            (st1, .error (.invalidVersionReq plugin.name plugin.api_version_require))
          | some req =>
            if VersionReq.matches req API_VERSION then
              ({ st1 with plugins := st1.plugins ++ [plugin] }, .ok ())
            else
              ({ st1 with loaded_libraries := st1.loaded_libraries.dropLast },
               .error (.invalidVersionReq plugin.name plugin.api_version_require))

/-- The lifetime-relevant events of one load_plugin call, in program
order: pushing/popping (unloading) the library handle, invoking a method
of the constructed plugin instance through its vtable, registering the
instance, and the instance being destroyed (the Box dropped). -/
inductive LoadEvent where
  | pushLibrary
  | invokeInstance (method : String)
  | pushPlugin
  | destroyInstance
  | unloadLibrary
deriving DecidableEq

/-- The event trace of one load_plugin call, mirroring the source line by
line.  On the version-mismatch branch the source first pops the library
(the popped handle is dropped at once, unloading the module), then calls
plugin.name() while building the error value, and the plugin box is
dropped when the function returns. -/
def load_plugin_events (file : Option Bytes) (w : LoadWorld) : List LoadEvent :=
  match Package.importFile file VERIFIER_KEY with
  | .error _ => []
  | .ok package =>
    match load_plugin_inner package w with
    | .error _ => []
    | .ok lib =>
      if !lib.hasCreateSymbol then [.pushLibrary]
      else
        match lib.createResult with
        | .error _ => [.pushLibrary]
        | .ok plugin =>
          match VersionReq.parse plugin.api_version_require with
          | Option.none =>
            [.pushLibrary, .invokeInstance "api_version_require",
             .invokeInstance "name", .destroyInstance]
          | some req =>
            if VersionReq.matches req API_VERSION then
              [.pushLibrary, .invokeInstance "api_version_require",
               .invokeInstance "name", .invokeInstance "on_plugin_load", .pushPlugin]
            else
              [.pushLibrary, .invokeInstance "api_version_require",
               .unloadLibrary, .invokeInstance "name", .destroyInstance]

/-- An event is a use of the plugin instance (a vtable call or its
destruction), which is only sound while the backing library is loaded. -/
def isInstanceUse : LoadEvent → Bool
  | .invokeInstance _ => true
  | .destroyInstance => true
  | _ => false

/-- No instance use occurs at or after the point the library handle is
unloaded. -/
def noUseAfterUnload : List LoadEvent → Bool
  | [] => true
  | .unloadLibrary :: rest => rest.all (fun e => !isInstanceUse e)
  | _ :: rest => noUseAfterUnload rest

/-- The algorithm tag of an exported envelope, observable after envelope
decoding. -/
def envelopeAlog (b : Bytes) : Option ExportAlgorithm :=
  match bincodeDeserializeExport b with
  | .ok e => some e.alog
  | .error _ => Option.none

/-! ### Concrete fixtures used by the counterexamples and witnesses -/

/-- A metadata record as the packer would read it (the digest field is
caller-supplied and gets overwritten by Package::new). -/
def meta0 : PackageMetadata := ⟨"sample", "", ⟨1, 0, 0⟩, []⟩

/-- A well-formed package produced by the construction function. -/
def pkg0 : Package := Package.new meta0 [1, 2, 3]

/-- An empty registry. -/
def mgr0 : PluginManager := ⟨[], []⟩

/-- The on-disk file of pkg0 exported under the trusted key. -/
def fileOk : Option Bytes := some (Package.export pkg0 VERIFIER_KEY)

/-- A linked library that does not export the entry symbol. -/
def libNoSym : LibraryImage := ⟨false, .error .invalidConfig⟩

/-- A load environment in which staging succeeds but the entry symbol is
missing. -/
def wMissing : LoadWorld := ⟨"T", true, true, true, [1, 2, 3], true, libNoSym⟩

/-- A load environment in which the plugin constructs successfully but
declares a well-formed requirement the host version does not meet. -/
def wUnmet : LoadWorld :=
  ⟨"T", true, true, true, [1, 2, 3], true, ⟨true, .ok ⟨"spider", "^2.0.0"⟩⟩⟩

/-- A load environment in which the plugin declares an unparseable
requirement string. -/
def wMalformed : LoadWorld :=
  ⟨"T", true, true, true, [1, 2, 3], true, ⟨true, .ok ⟨"spider", "not a requirement"⟩⟩⟩

/-- A package whose digest field is the UPPER-CASE hex encoding of the
correct library digest: it differs from the string hex::encode would
produce, yet hex::decode accepts it. -/
def pUp : Package :=
  ⟨⟨"sample",
    "936C451EF7D0A9825B340DE6BF98714A23FCD5AE87603912EBC49D764F2801DAB38C653E17F0C9A27B542D06DFB8916A431CF5CEA78059320BE4BD966F4821FA",
    ⟨1, 0, 0⟩, []⟩, [0]⟩

/-- A package whose digest field is not valid hex at all. -/
def pMal : Package := ⟨⟨"mal", "zz", ⟨1, 0, 0⟩, []⟩, [7]⟩

/-- An envelope with algorithm tag None over the uncompressed serialised
pkg0, signed by the trusted key: a shape Package::export never emits. -/
def ePlain : Bytes :=
  bincodeSerializeExport
    ⟨ExportAlgorithm.none, bincodeSerializePackage pkg0,
     sign VERIFIER_KEY (bincodeSerializePackage pkg0)⟩

/-! ### Helper lemmas -/

theorem blake512_length (bs : List Nat) : (blake512 bs).length = 64 := by
  simp [blake512]

theorem blake512_lt (bs : List Nat) : ∀ x ∈ blake512 bs, x < 256 := by
  intro x hx
  simp only [blake512, List.mem_map] at hx
  obtain ⟨i, -, rfl⟩ := hx
  exact Nat.mod_lt _ (by omega)

theorem hexDigitVal_hexDigitChar : ∀ n < 16, hexDigitVal (hexDigitChar n) = some n := by
  decide

theorem hexDecodeList_hexEncodeList (bs : List Nat) (h : ∀ b ∈ bs, b < 256) :
    hexDecodeList (hexEncodeList bs) = some bs := by
  induction bs with
  | nil => rfl
  | cons b rest ih =>
    have hb : b < 256 := h b (List.mem_cons_self b rest)
    have hdiv : b / 16 < 16 := by omega
    have hmod : b % 16 < 16 := Nat.mod_lt _ (by omega)
    have hrest := ih (fun x hx => h x (List.mem_cons_of_mem b hx))
    simp only [hexEncodeList, List.flatMap_cons, List.cons_append, List.nil_append]
    show hexDecodeList (hexDigitChar (b / 16) :: hexDigitChar (b % 16) :: _) = _
    rw [hexDecodeList, hexDigitVal_hexDigitChar _ hdiv, hexDigitVal_hexDigitChar _ hmod]
    simp only [hexEncodeList] at hrest
    rw [hrest]
    show some ((b / 16 * 16 + b % 16) :: rest) = some (b :: rest)
    have hdm : b / 16 * 16 + b % 16 = b := by omega
    rw [hdm]

theorem hexDecode_hexEncode (bs : List Nat) (h : ∀ b ∈ bs, b < 256) :
    hexDecode (hexEncode bs) = some bs :=
  hexDecodeList_hexEncodeList bs h

/-- Packages built by Package::new always pass the digest check. -/
theorem digest_check_new (m : PackageMetadata) (l : List Nat) :
    (Package.new m l).digest_check = true := by
  have h1 := hexDecode_hexEncode (blake512 l) (blake512_lt l)
  simp only [Package.digest_check, Package.new, Package.digest]
  rw [h1]
  simp [blake512_length]

/-- When decoding, decompression, verification and deserialisation all
succeed, Package::import returns the deserialised package or the digest
error according to digest_check. -/
theorem importPkg_of_deserialized (e : Bytes) (pk : Nat) (p : Package)
    (h : importDeserialized e pk = some p) :
    Package.importPkg e pk = if p.digest_check then .ok p else .error .invalidDigest := by
  cases e with
  | raw d => simp [importDeserialized, importPayload, bincodeDeserializeExport] at h
  | pkgWire bv av mj lib => simp [importDeserialized, importPayload, bincodeDeserializeExport] at h
  | zstdWire i => simp [importDeserialized, importPayload, bincodeDeserializeExport] at h
  | envWire a pl k2 m2 =>
      cases a with
      | none =>
          by_cases hv : verify pk pl ⟨k2, m2⟩ = true
          · cases hd : bincodeDeserializePackage pl with
            | error err =>
                simp [importDeserialized, importPayload, bincodeDeserializeExport, hv, hd] at h
            | ok q =>
                simp only [importDeserialized, importPayload, bincodeDeserializeExport,
                           hv, hd, if_true] at h
                cases h
                simp [Package.importPkg, bincodeDeserializeExport, hv, hd]
          · rw [Bool.not_eq_true] at hv
            simp [importDeserialized, importPayload, bincodeDeserializeExport, hv] at h
      | zstd =>
          cases pl with
          | zstdWire i =>
              by_cases hv : verify pk i ⟨k2, m2⟩ = true
              · cases hd : bincodeDeserializePackage i with
                | error err =>
                    simp [importDeserialized, importPayload, bincodeDeserializeExport,
                          zstdDecodeAll, hv, hd] at h
                | ok q =>
                    simp only [importDeserialized, importPayload, bincodeDeserializeExport,
                               zstdDecodeAll, hv, hd, if_true] at h
                    cases h
                    simp [Package.importPkg, bincodeDeserializeExport, zstdDecodeAll, hv, hd]
              · rw [Bool.not_eq_true] at hv
                simp [importDeserialized, importPayload, bincodeDeserializeExport,
                      zstdDecodeAll, hv] at h
          | raw d =>
              simp [importDeserialized, importPayload, bincodeDeserializeExport, zstdDecodeAll] at h
          | pkgWire bv av mj lib =>
              simp [importDeserialized, importPayload, bincodeDeserializeExport, zstdDecodeAll] at h
          | envWire a2 p2 k3 m3 =>
              simp [importDeserialized, importPayload, bincodeDeserializeExport, zstdDecodeAll] at h

theorem string_data_append (a b : String) : (a ++ b).data = a.data ++ b.data := by
  cases a; cases b; rfl

theorem string_eq_of_data_eq (a b : String) (h : a.data = b.data) : a = b := by
  cases a; cases b; simp at h; rw [h]

theorem alphanumericSampleChar_isAlphanum (n : Nat) :
    (alphanumericSampleChar n).isAlphanum = true := by
  have h2 : ∀ r < 62, (ALPHANUMERIC.getD r 'A').isAlphanum = true := by decide
  exact h2 (n % 62) (Nat.mod_lt n (by decide))

theorem alphanumericSample_length (seed len : Nat) :
    (alphanumericSample seed len).data.length = len := by
  show ((List.range len).map _).length = len
  simp

theorem alphanumericSample_all_alphanum (seed len : Nat) :
    ((alphanumericSample seed len).data.all Char.isAlphanum) = true := by
  show ((List.range len).map _).all _ = true
  rw [List.all_eq_true]
  intro c hc
  rw [List.mem_map] at hc
  obtain ⟨i, -, rfl⟩ := hc
  exact alphanumericSampleChar_isAlphanum _

/-- The file name release_lib_to_temp stages to always has the random
token shape. -/
theorem release_lib_file_name_shape (seed : Nat) :
    hasRandomTokenShape (release_lib_file_name seed) = true := by
  have hdata : (release_lib_file_name seed).data
      = (alphanumericSample seed 32).data ++ ('.' :: PLUGIN_EXT.data) := by
    show ((alphanumericSample seed 32 ++ "." ++ PLUGIN_EXT)).data = _
    rw [string_data_append, string_data_append, List.append_assoc]
    rfl
  have hlen := alphanumericSample_length seed 32
  unfold hasRandomTokenShape
  rw [hdata]
  have htake : ((alphanumericSample seed 32).data ++ ('.' :: PLUGIN_EXT.data)).take 32
      = (alphanumericSample seed 32).data := by
    rw [show (32 : Nat) = (alphanumericSample seed 32).data.length from hlen.symm]
    exact List.take_left _ _
  have hdrop : ((alphanumericSample seed 32).data ++ ('.' :: PLUGIN_EXT.data)).drop 32
      = '.' :: PLUGIN_EXT.data := by
    rw [show (32 : Nat) = (alphanumericSample seed 32).data.length from hlen.symm]
    exact List.drop_left _ _
  rw [htake, hdrop]
  simp only [List.length_append, hlen, alphanumericSample_all_alphanum]
  simp only [List.length_cons, Bool.and_eq_true, beq_iff_eq]
  refine ⟨⟨by omega, trivial⟩, by simp⟩

/-! ### Claims -/

/-- C1: Package::import proceeds in the mandatory order — decode the
envelope, decompress the payload according to the algorithm tag, verify
the signature against the decompressed payload, deserialise the
structured Package fields, check the digest.  The instrumented pipeline
agrees with Package::import, its executed stages are always a prefix of
that order, field deserialisation happens only when signature
verification over the payload succeeded, and a signature failure
short-circuits with a signature error before any field is deserialised. -/
theorem import_pipeline_order (e : Bytes) (pk : Nat) :
    (importFull e pk).1 = Package.importPkg e pk
    ∧ (∃ rest, (importFull e pk).2 ++ rest =
        [ImportStep.decodeEnvelope, ImportStep.decompress, ImportStep.verifySignature,
         ImportStep.deserializeFields, ImportStep.digestCheck])
    ∧ (ImportStep.deserializeFields ∈ (importFull e pk).2 →
        ∃ payload s, importPayload e = .ok (payload, s) ∧ verify pk payload s = true)
    ∧ (∀ payload s, importPayload e = .ok (payload, s) → verify pk payload s = false →
        Package.importPkg e pk = .error .signature
        ∧ (importFull e pk).2 =
            [ImportStep.decodeEnvelope, ImportStep.decompress, ImportStep.verifySignature]) := by
  cases e with
  | raw d =>
      exact ⟨rfl, ⟨_, rfl⟩, by simp [importFull, bincodeDeserializeExport],
             by simp [importPayload, bincodeDeserializeExport]⟩
  | pkgWire bv av mj lib =>
      exact ⟨rfl, ⟨_, rfl⟩, by simp [importFull, bincodeDeserializeExport],
             by simp [importPayload, bincodeDeserializeExport]⟩
  | zstdWire i =>
      exact ⟨rfl, ⟨_, rfl⟩, by simp [importFull, bincodeDeserializeExport],
             by simp [importPayload, bincodeDeserializeExport]⟩
  | envWire a p k m =>
      cases a with
      | none =>
          by_cases hv : verify pk p ⟨k, m⟩ = true
          · cases hd : bincodeDeserializePackage p with
            | error err =>
                refine ⟨?_, ?_, ?_, ?_⟩
                · simp [importFull, Package.importPkg, bincodeDeserializeExport, hv, hd]
                · exact ⟨[ImportStep.digestCheck],
                         by simp [importFull, bincodeDeserializeExport, hv, hd]⟩
                · intro _
                  exact ⟨p, ⟨k, m⟩, by simp [importPayload, bincodeDeserializeExport], hv⟩
                · intro payload s hps hvf
                  simp only [importPayload, bincodeDeserializeExport] at hps
                  cases hps
                  rw [hv] at hvf
                  cases hvf
            | ok package =>
                refine ⟨?_, ?_, ?_, ?_⟩
                · simp [importFull, Package.importPkg, bincodeDeserializeExport, hv, hd]
                · exact ⟨[], by simp [importFull, bincodeDeserializeExport, hv, hd]⟩
                · intro _
                  exact ⟨p, ⟨k, m⟩, by simp [importPayload, bincodeDeserializeExport], hv⟩
                · intro payload s hps hvf
                  simp only [importPayload, bincodeDeserializeExport] at hps
                  cases hps
                  rw [hv] at hvf
                  cases hvf
          · rw [Bool.not_eq_true] at hv
            refine ⟨?_, ?_, ?_, ?_⟩
            · simp [importFull, Package.importPkg, bincodeDeserializeExport, hv]
            · exact ⟨[ImportStep.deserializeFields, ImportStep.digestCheck],
                     by simp [importFull, bincodeDeserializeExport, hv]⟩
            · simp [importFull, bincodeDeserializeExport, hv]
            · intro payload s hps hvf
              simp only [importPayload, bincodeDeserializeExport] at hps
              cases hps
              exact ⟨by simp [Package.importPkg, bincodeDeserializeExport, hv],
                     by simp [importFull, bincodeDeserializeExport, hv]⟩
      | zstd =>
          cases p with
          | zstdWire i =>
              by_cases hv : verify pk i ⟨k, m⟩ = true
              · cases hd : bincodeDeserializePackage i with
                | error err =>
                    refine ⟨?_, ?_, ?_, ?_⟩
                    · simp [importFull, Package.importPkg, bincodeDeserializeExport,
                            zstdDecodeAll, hv, hd]
                    · exact ⟨[ImportStep.digestCheck],
                             by simp [importFull, bincodeDeserializeExport, zstdDecodeAll, hv, hd]⟩
                    · intro _
                      exact ⟨i, ⟨k, m⟩,
                             by simp [importPayload, bincodeDeserializeExport, zstdDecodeAll], hv⟩
                    · intro payload s hps hvf
                      simp only [importPayload, bincodeDeserializeExport, zstdDecodeAll] at hps
                      cases hps
                      rw [hv] at hvf
                      cases hvf
                | ok package =>
                    refine ⟨?_, ?_, ?_, ?_⟩
                    · simp [importFull, Package.importPkg, bincodeDeserializeExport,
                            zstdDecodeAll, hv, hd]
                    · exact ⟨[], by simp [importFull, bincodeDeserializeExport, zstdDecodeAll, hv, hd]⟩
                    · intro _
                      exact ⟨i, ⟨k, m⟩,
                             by simp [importPayload, bincodeDeserializeExport, zstdDecodeAll], hv⟩
                    · intro payload s hps hvf
                      simp only [importPayload, bincodeDeserializeExport, zstdDecodeAll] at hps
                      cases hps
                      rw [hv] at hvf
                      cases hvf
              · rw [Bool.not_eq_true] at hv
                refine ⟨?_, ?_, ?_, ?_⟩
                · simp [importFull, Package.importPkg, bincodeDeserializeExport, zstdDecodeAll, hv]
                · exact ⟨[ImportStep.deserializeFields, ImportStep.digestCheck],
                         by simp [importFull, bincodeDeserializeExport, zstdDecodeAll, hv]⟩
                · simp [importFull, bincodeDeserializeExport, zstdDecodeAll, hv]
                · intro payload s hps hvf
                  simp only [importPayload, bincodeDeserializeExport, zstdDecodeAll] at hps
                  cases hps
                  exact ⟨by simp [Package.importPkg, bincodeDeserializeExport, zstdDecodeAll, hv],
                         by simp [importFull, bincodeDeserializeExport, zstdDecodeAll, hv]⟩
          | raw d =>
              refine ⟨rfl, ⟨_, rfl⟩, ?_, ?_⟩ <;>
                simp [importFull, importPayload, bincodeDeserializeExport, zstdDecodeAll]
          | pkgWire bv av mj lib =>
              refine ⟨rfl, ⟨_, rfl⟩, ?_, ?_⟩ <;>
                simp [importFull, importPayload, bincodeDeserializeExport, zstdDecodeAll]
          | envWire a2 p2 k2 m2 =>
              refine ⟨rfl, ⟨_, rfl⟩, ?_, ?_⟩ <;>
                simp [importFull, importPayload, bincodeDeserializeExport, zstdDecodeAll]

/-- C3: importing the export of a package constructed by Package::new
under the matching key yields a package with identical metadata fields
and identical library bytes (the package itself, since the construction
already fixed the digest field). -/
theorem export_import_roundtrip (m : PackageMetadata) (l : List Nat) (k : Nat) :
    Package.importPkg (Package.export (Package.new m l) k) k = .ok (Package.new m l) := by
  simp [Package.export, Package.importPkg, bincodeSerializeExport, bincodeDeserializeExport,
        zstdEncodeAll, zstdDecodeAll, verify, sign, bincodeSerializePackage,
        bincodeDeserializePackage, digest_check_new]
  exact digest_check_new m l

/-- C4 (amended): on every failing load_plugin call the plugins
collection is unchanged, the loaded_libraries collection is either
unchanged or extended by exactly the newly linked library, and failures
of the import stage leave the whole registry state unchanged.  (The
original claim — the whole state is always unchanged — is refuted by
load_failure_changes_registry_cex: post-link failures leave the new
library behind.) -/
theorem load_failure_registry_state (st : PluginManager) (file : Option Bytes) (w : LoadWorld)
    (err : LoadError) (h : (load_plugin st file w).2 = .error err) :
    (load_plugin st file w).1.plugins = st.plugins
    ∧ ((load_plugin st file w).1.loaded_libraries = st.loaded_libraries
       ∨ ∃ lib, (load_plugin st file w).1.loaded_libraries = st.loaded_libraries ++ [lib])
    ∧ ∀ e2, err = .invalidPackage e2 → (load_plugin st file w).1 = st := by
  cases hi : Package.importFile file VERIFIER_KEY with
  | error e =>
      refine ⟨?_, Or.inl ?_, fun e2 he => ?_⟩ <;> simp [load_plugin, hi]
  | ok package =>
      cases hin : load_plugin_inner package w with
      | error e =>
          refine ⟨?_, Or.inl ?_, fun e2 he => ?_⟩ <;> simp [load_plugin, hi, hin]
      | ok lib =>
          by_cases hs : lib.hasCreateSymbol = true
          · cases hcr : lib.createResult with
            | error e =>
                have he : err = .pluginInitialization e := by
                  simp [load_plugin, hi, hin, hs, hcr] at h
                  exact h.symm
                refine ⟨by simp [load_plugin, hi, hin, hs, hcr],
                        Or.inr ⟨lib, by simp [load_plugin, hi, hin, hs, hcr]⟩,
                        fun e2 hee => ?_⟩
                rw [he] at hee
                cases hee
            | ok plugin =>
                cases hp : VersionReq.parse plugin.api_version_require with
                | none =>
                    have he : err = .invalidVersionReq plugin.name plugin.api_version_require := by
                      simp [load_plugin, hi, hin, hs, hcr, hp] at h
                      exact h.symm
                    refine ⟨by simp [load_plugin, hi, hin, hs, hcr, hp],
                            Or.inr ⟨lib, by simp [load_plugin, hi, hin, hs, hcr, hp]⟩,
                            fun e2 hee => ?_⟩
                    rw [he] at hee
                    cases hee
                | some req =>
                    by_cases hm : VersionReq.matches req API_VERSION = true
                    · exfalso
                      simp [load_plugin, hi, hin, hs, hcr, hp, hm] at h
                    · rw [Bool.not_eq_true] at hm
                      have he : err = .invalidVersionReq plugin.name plugin.api_version_require := by
                        simp [load_plugin, hi, hin, hs, hcr, hp, hm] at h
                        exact h.symm
                      refine ⟨by simp [load_plugin, hi, hin, hs, hcr, hp, hm],
                              Or.inl ?_, fun e2 hee => ?_⟩
                      · simp [load_plugin, hi, hin, hs, hcr, hp, hm]
                      · rw [he] at hee
                        cases hee
          · rw [Bool.not_eq_true] at hs
            have he : err = .missingSymbol "_comet_plugin_create" := by
              simp [load_plugin, hi, hin, hs] at h
              exact h.symm
            refine ⟨by simp [load_plugin, hi, hin, hs],
                    Or.inr ⟨lib, by simp [load_plugin, hi, hin, hs]⟩,
                    fun e2 hee => ?_⟩
            rw [he] at hee
            cases hee

/-- C4 witness: the amended statement at a concrete failing load (missing
entry symbol). -/
theorem load_failure_registry_state_witness :
    (load_plugin mgr0 fileOk wMissing).1.plugins = mgr0.plugins
    ∧ ((load_plugin mgr0 fileOk wMissing).1.loaded_libraries = mgr0.loaded_libraries
       ∨ ∃ lib, (load_plugin mgr0 fileOk wMissing).1.loaded_libraries
           = mgr0.loaded_libraries ++ [lib]) := by
  have h := load_failure_registry_state mgr0 fileOk wMissing
    (.missingSymbol "_comet_plugin_create") (by decide)
  exact ⟨h.1, h.2.1⟩

/-- C4 counterexample: a failing load (missing entry symbol) changes the
observable registry state — the freshly linked library stays in
loaded_libraries although the call returned an error. -/
theorem load_failure_changes_registry_cex :
    (load_plugin mgr0 fileOk wMissing).2 = .error (.missingSymbol "_comet_plugin_create")
    ∧ mgr0.loaded_libraries = []
    ∧ (load_plugin mgr0 fileOk wMissing).1.loaded_libraries = [libNoSym] := by
  decide

/-- C5: a well-formed but unmet version requirement and a malformed one
are reported with the same error constructor.  The requirement caret two
parses and does not match API_VERSION, yet load_plugin returns
Error::InvalidVersionReq for it, exactly as it does for an unparseable
requirement string; the Error::UnmetRequirement variant of the source is
never produced. -/
theorem unmet_requirement_reported_as_invalid :
    VersionReq.parse "^2.0.0" = some (VersionReq.caret ⟨2, 0, 0⟩)
    ∧ VersionReq.matches (VersionReq.caret ⟨2, 0, 0⟩) API_VERSION = false
    ∧ (load_plugin mgr0 fileOk wUnmet).2 = .error (.invalidVersionReq "spider" "^2.0.0")
    ∧ VersionReq.parse "not a requirement" = Option.none
    ∧ (load_plugin mgr0 fileOk wMalformed).2
        = .error (.invalidVersionReq "spider" "not a requirement") := by
  decide

/-- C6: on the version-mismatch rejection path the source pops and drops
the library handle first, then invokes plugin.name() through the vtable
while building the error, and the plugin instance is destroyed when the
function returns — both instance uses occur after the unload, violating
the handle-outlives-instance ordering. -/
theorem version_mismatch_instance_outlives_handle :
    load_plugin_events fileOk wUnmet =
      [LoadEvent.pushLibrary, LoadEvent.invokeInstance "api_version_require",
       LoadEvent.unloadLibrary, LoadEvent.invokeInstance "name", LoadEvent.destroyInstance]
    ∧ noUseAfterUnload (load_plugin_events fileOk wUnmet) = false
    ∧ (load_plugin mgr0 fileOk wUnmet).2 = .error (.invalidVersionReq "spider" "^2.0.0") := by
  decide

/-- C7 (amended): every Package built by Package::new carries the hex
encoding of its library digest in metadata.digest; digest_check holds
exactly when the digest field hex-decodes (case-insensitively) to the
64-byte library digest; and Package::import rejects with the
digest-mismatch error every deserialised package failing that check.
(The original string-equality form of the rejection clause is refuted by
digest_equality_cex: an upper-case digest field differs from the encoded
string yet is accepted.) -/
theorem digest_consistency_amended :
    (∀ (m : PackageMetadata) (l : List Nat),
        (Package.new m l).metadata.digest = hexEncode (Package.digest (Package.new m l)))
    ∧ (∀ p : Package, p.digest_check = true ↔ hexDecode p.metadata.digest = some p.digest)
    ∧ (∀ (e : Bytes) (pk : Nat) (p : Package), importDeserialized e pk = some p →
        p.digest_check = false → Package.importPkg e pk = .error .invalidDigest) := by
  refine ⟨fun m l => rfl, fun p => ?_, fun e pk p h hdc => ?_⟩
  · constructor
    · intro hc
      simp only [Package.digest_check] at hc
      cases hd : hexDecode p.metadata.digest with
      | none => rw [hd] at hc; cases hc
      | some d =>
          rw [hd] at hc
          have hand := (Bool.and_eq_true _ _).mp hc
          have hde : d = p.digest := eq_of_beq hand.2
          rw [hde]
    · intro hd
      simp only [Package.digest_check, hd]
      simp [Package.digest, blake512_length]
  · rw [importPkg_of_deserialized e pk p h, hdc]
    simp

/-- C7 counterexample: a package whose digest field is the upper-case hex
of the correct digest — the hex encoding of the library digest is not
equal to the digest field, yet digest_check passes and Package::import
accepts the package instead of rejecting it. -/
theorem digest_equality_cex :
    (hexEncode (Package.digest pUp) == pUp.metadata.digest) = false
    ∧ Package.digest_check pUp = true
    ∧ Package.importPkg (Package.export pUp VERIFIER_KEY) VERIFIER_KEY = .ok pUp := by
  decide

/-- C9: digest_check is total and false on every package whose digest
field does not hex-decode to exactly 64 bytes, and Package::import
returns the digest-mismatch error on any envelope deserialising to such
a package. -/
theorem digest_check_malformed (p : Package)
    (h : ∀ d, hexDecode p.metadata.digest = some d → d.length ≠ 64) :
    p.digest_check = false
    ∧ ∀ (e : Bytes) (pk : Nat), importDeserialized e pk = some p →
        Package.importPkg e pk = .error .invalidDigest := by
  have hc : p.digest_check = false := by
    simp only [Package.digest_check]
    cases hd : hexDecode p.metadata.digest with
    | none => rfl
    | some d =>
        have hlen : d.length ≠ 64 := h d hd
        have hb : (d.length == 64) = false := beq_eq_false_iff_ne.mpr hlen
        simp [hb]
  refine ⟨hc, fun e pk hdes => ?_⟩
  rw [importPkg_of_deserialized e pk p hdes, hc]
  simp

/-- C9 witness: the malformed-digest package pMal (digest field not hex)
fails digest_check and its signed export is rejected with the
digest-mismatch error. -/
theorem digest_check_malformed_witness :
    Package.digest_check pMal = false
    ∧ Package.importPkg (Package.export pMal VERIFIER_KEY) VERIFIER_KEY
        = .error .invalidDigest := by
  have hnone : hexDecode pMal.metadata.digest = Option.none := by decide
  have h : ∀ d, hexDecode pMal.metadata.digest = some d → d.length ≠ 64 := by
    intro d hd
    rw [hnone] at hd
    cases hd
  exact ⟨(digest_check_malformed pMal h).1,
         (digest_check_malformed pMal h).2 (Package.export pMal VERIFIER_KEY) VERIFIER_KEY
           (by decide)⟩

/-- C10: Package::import accepts an envelope whose algorithm tag is None
by verifying over the raw payload (ePlain imports successfully), while
Package::export only ever produces envelopes tagged Zstd — so import
accepts strictly more envelope shapes than export can produce. -/
theorem import_accepts_uncompressed_envelopes :
    Package.importPkg ePlain VERIFIER_KEY = .ok pkg0
    ∧ envelopeAlog ePlain = some ExportAlgorithm.none
    ∧ ∀ (p : Package) (k : Nat), envelopeAlog (Package.export p k) = some ExportAlgorithm.zstd := by
  refine ⟨by decide, by decide, fun p k => rfl⟩

/-- C8 (amended): release_lib_to_temp stages to a freshly sampled
32-character alphanumeric token with the platform extension, but the
staging the loader actually performs (load_plugin_inner) uses the fixed
file name plugin.dll inside a freshly created temporary directory; two
loads staged in distinct temporary directories still get distinct staged
paths. -/
theorem staging_names_amended (seed : Nat) (d1 d2 : String) (h : (d1 == d2) = false) :
    release_lib_file_name seed = alphanumericSample seed 32 ++ "." ++ PLUGIN_EXT
    ∧ hasRandomTokenShape (release_lib_file_name seed) = true
    ∧ hasRandomTokenShape load_plugin_inner_file_name = false
    ∧ (load_plugin_inner_staged_path d1 == load_plugin_inner_staged_path d2) = false := by
  refine ⟨rfl, release_lib_file_name_shape seed, by decide, ?_⟩
  have hne : d1 ≠ d2 := by
    intro hc
    rw [hc] at h
    simp at h
  rw [beq_eq_false_iff_ne]
  intro hc
  apply hne
  have h1 : ((d1 ++ "/") ++ load_plugin_inner_file_name).data
      = ((d2 ++ "/") ++ load_plugin_inner_file_name).data := congrArg String.data hc
  rw [string_data_append, string_data_append, string_data_append, string_data_append] at h1
  have h2 := List.append_cancel_right h1
  have h3 := List.append_cancel_right h2
  exact string_eq_of_data_eq d1 d2 h3

/-- C8 witness: the amended statement at seed 0 and two concrete distinct
temporary directories. -/
theorem staging_names_amended_witness :
    hasRandomTokenShape (release_lib_file_name 0) = true
    ∧ (load_plugin_inner_staged_path "a" == load_plugin_inner_staged_path "b") = false := by
  have h := staging_names_amended 0 "a" "b" (by decide)
  exact ⟨h.2.1, h.2.2.2⟩

/-- C8 counterexample: the staging performed by the loader writes the
library to the constant file name plugin.dll, which does not have the
random 32-character token shape the claim asserts for every staging. -/
theorem loader_staging_name_cex :
    load_plugin_inner_file_name = "plugin.dll"
    ∧ hasRandomTokenShape load_plugin_inner_file_name = false
    ∧ load_plugin_inner_staged_path "T" = "T/plugin.dll" := by
  decide
